import Mathlib

/-! Organization provisioning (`server/pkg/entity/organization.go`)

A shallow embedding of the Go package `entity`: the certificate-authority
issuance and MSP bundle assembly pipeline of an `Organization`.

Conventions of the embedding

* A Go function that returns `(x, err)` returns the same tuple here; a nil
  pointer, nil interface value or nil `error` is `none`.
* Code that touches the outside world (file system, crypto provider, MSP
  layout builder, store) threads an abstract world `W`; the external calls are
  the fields of `Env W`, so a statement quantified over `Env W` and `W` holds
  for every behaviour of those collaborators.
* A run that dereferences a nil pointer panics: the function returns `none`
  instead of `some (results, world)`.
-/

set_option linter.dupNamespace false

namespace Fabric

/-- Go `error` values: only the message is observable. -/
structure GoError where
  msg : String
deriving DecidableEq, Repr

/-- Byte slices; Go strings are byte sequences, so `[]byte(s)` and `string(b)`
are the identity. -/
abbrev Bytes := String

/-- A pointer or interface value that refers to an object owned by an external
library (`bccsp.Key`, `crypto.Signer`, `bccsp.BCCSP`, `*os.File`,
`*ecdsa.PublicKey`); `none` is nil. -/
abbrev Handle := Option Nat

structure PEM where
  Name : String
  Key : String
  Cert : String
  Type_ : String
deriving DecidableEq, Repr

structure MSP where
  Name : String
  Path : String
  Type_ : String
  Role : String
deriving DecidableEq, Repr

structure Organization where
  Country : String
  Province : String
  Locality : String
  Organization : String
  CommonName : String
  OrganizationalUnit : String
  StreetAddress : String
  PostalCode : String
  PEMs : List PEM
  MSPs : List MSP
deriving DecidableEq, Repr

/-- The part of `pem.Block` the package reads. -/
structure Block where
  Type_ : String
  Bytes : Bytes
deriving DecidableEq, Repr

/-- The part of `x509.Certificate` the package reads. -/
structure Certificate where
  Raw : Bytes
deriving DecidableEq, Repr

/-- The struct `ca.CA` of fabric's cryptogen; `SignCert` is a pointer. -/
structure CA where
  Name : String
  Country : String
  Province : String
  Locality : String
  OrganizationalUnit : String
  StreetAddress : String
  PostalCode : String
  Signer : Handle
  SignCert : Option Certificate
deriving DecidableEq, Repr

/-- What `MapToEntity` hands back as an `interface{}`: a `*Organization`
(possibly a nil pointer) or a value of some other type. -/
inductive Entity where
  | organization (p : Option Organization)
  | other
deriving DecidableEq, Repr

/-- Raw records of the store. -/
abbrev Record := String

/-- `msp.ORDERER` of fabric's cryptogen (`CLIENT = iota`, `ORDERER`, `PEER`). -/
def ORDERER : Int := 1

/-- `msp.PEER` of fabric's cryptogen. -/
def PEER : Int := 2

/-- `x509.KeyUsageDigitalSignature`. -/
def KeyUsageDigitalSignature : Nat := 1

/-- Everything the package calls but does not define: the standard library,
fabric's crypto provider and MSP generator, the store, and the package-level
variables and helpers declared in other files of the package. -/
structure Env (W : Type) where
  /-- package variable `tempDir` -/
  tempDir : String
  /-- package variable `mspDir` -/
  mspDir : String
  /-- package variable `organizations` (the store collection) -/
  organizations : String
  /-- package helper `Path`, as a function of the four segments it is given -/
  Path : String → String → String → String → String
  /-- package helper `MapToEntity` -/
  MapToEntity : Record → String → Entity
  /-- `filepath.Join` -/
  join : List String → String
  /-- `os.RemoveAll`; the package never looks at its result -/
  removeAll : String → W → W
  /-- `os.Mkdir path 0755`; the package never looks at its result -/
  mkdir : String → W → W
  /-- `ioutil.ReadDir`, as the names of the entries -/
  readDir : String → W → (List String × Option GoError) × W
  /-- `ioutil.ReadFile` -/
  readFile : String → W → (Bytes × Option GoError) × W
  /-- `os.Create` -/
  osCreate : String → W → (Handle × Option GoError) × W
  /-- `(*os.File).Close` -/
  fileClose : Handle → W → W
  /-- `(*os.File).WriteString`, as its error -/
  writeString : Handle → String → W → Option GoError × W
  /-- `pem.Encode` -/
  pemEncode : Handle → Block → W → Option GoError × W
  /-- `pem.Decode`, as the block found (nil when the input holds none) -/
  pemDecode : Bytes → Option Block
  /-- `x509.ParseCertificate` -/
  parseCertificate : Bytes → Except GoError Certificate
  /-- `ca.NewCA baseDir org name country province locality orgUnit
  streetAddress postalCode` -/
  newCA : String → String → String → String → String → String → String →
    String → String → W → (Option CA × Option GoError) × W
  /-- `csp.GeneratePrivateKey` -/
  generatePrivateKey : String → W → (Handle × Handle × Option GoError) × W
  /-- `csp.GetECPublicKey` -/
  getECPublicKey : Handle → W → (Handle × Option GoError) × W
  /-- `(*ca.CA).SignCertificate baseDir name ous sans pub ku eku` -/
  signCertificate : CA → String → String → List String → List String →
    Handle → Nat → List Nat → W → (Option Certificate × Option GoError) × W
  /-- `factory.GetBCCSPFromOpts` at the software provider, SHA2, level 256 -/
  getBCCSPFromOpts : W → (Handle × Option GoError) × W
  /-- `csp.KeyImport raw &bccsp.ECDSAPrivateKeyImportOpts{Temporary: true}` -/
  keyImport : Handle → Bytes → W → (Handle × Option GoError) × W
  /-- `signer.New` -/
  signerNew : Handle → Handle → W → (Handle × Option GoError) × W
  /-- `msp.GenerateLocalMSP baseDir name sans signCA tlsCA nodeType nodeOUs`;
  it dereferences its CA arguments, so it may panic (`none`) -/
  generateLocalMSP : String → String → List String → Option CA → Option CA →
    Int → Bool → W → Option (Option GoError × W)
  /-- `store.Bt.View` -/
  storeView : String → W → (List Record × Option GoError) × W
  /-- law of fabric's `ca.NewCA`: the CA it makes carries the name it was
  asked for (`Name: name`) -/
  newCA_name : ∀ baseDir org name country province locality orgUnit street postal w ca,
    (newCA baseDir org name country province locality orgUnit street postal w).1.1 = some ca →
    ca.Name = name

variable {W : Type}

/-- `strings.Index(s, sub) != -1`. -/
def stringsContains (s sub : String) : Bool :=
  s.data.tails.any (fun t => sub.data.isPrefixOf t)

/-- `LoadSigner`: returns `(priv, signer, err)`; panics on `block.Bytes` when
`pem.Decode` found no block. -/
def LoadSigner (E : Env W) (rawKey : String) (w : W) :
    Option ((Handle × Handle × Option GoError) × W) :=
  match E.getBCCSPFromOpts w with
  | ((csp, err), w1) =>
    if err ≠ none then some ((none, none, err), w1)
    else
      match E.pemDecode rawKey with
      | none => none
      | some block =>
        match E.keyImport csp block.Bytes w1 with
        | ((priv, err), w2) =>
          if err ≠ none then some ((none, none, err), w2)
          else
            match E.signerNew csp priv w2 with
            | ((s, err), w3) =>
              if err ≠ none then some ((none, none, err), w3)
              else some ((priv, s, err), w3)

/-- The loop of `GetCA` over `organization.PEMs`. -/
def GetCA.loop (E : Env W) (commonName : String) (organization : Organization) :
    List PEM → W → Option ((Option CA × String × Option GoError) × W)
  | [], w => some ((none, "", none), w)
  | v :: rest, w =>
    if v.Name = commonName then
      match E.pemDecode v.Cert with
      | none => some ((none, "", some ⟨"no PEM data found for certificate"⟩), w)
      | some cBlock =>
        match E.parseCertificate cBlock.Bytes with
        | .error err => some ((none, "", some err), w)
        | .ok cert =>
          match LoadSigner E v.Key w with
          | none => none
          | some ((_, signer, err), w1) =>
            if err ≠ none then some ((none, "", err), w1)
            else
              some ((some {
                Name := commonName,
                Signer := signer,
                SignCert := some cert,
                Country := organization.Country,
                Province := organization.Province,
                Locality := organization.Locality,
                OrganizationalUnit := organization.OrganizationalUnit,
                StreetAddress := organization.StreetAddress,
                PostalCode := organization.PostalCode }, v.Key, none), w1)
    else GetCA.loop E commonName organization rest w

/-- `GetCA`: returns `(ca, rawKey, err)`. -/
def GetCA (E : Env W) (commonName : String) (organization : Organization) (w : W) :
    Option ((Option CA × String × Option GoError) × W) :=
  GetCA.loop E commonName organization organization.PEMs w

/-- `pemExport`: creates the file, encodes one PEM block into it and closes it
(the deferred `Close`). -/
def pemExport (E : Env W) (path pemType : String) (bytes : Bytes) (w : W) :
    Option GoError × W :=
  match E.osCreate path w with
  | ((file, err), w1) =>
    if err ≠ none then (err, w1)
    else
      match E.pemEncode file { Type_ := pemType, Bytes := bytes } w1 with
      | (err, w2) => (err, E.fileClose file w2)

/-- The loop of `getPEM` over the directory entries. -/
def getPEM.loop (E : Env W) : List String → PEM → W → (PEM × Option GoError) × W
  | [], pem, w => ((pem, none), w)
  | f :: files, pem, w =>
    match E.readFile (E.join [E.tempDir, f]) w with
    | ((b, err), w1) =>
      if err ≠ none then ((pem, err), w1)
      else if stringsContains f "cert.pem" then
        getPEM.loop E files { pem with Cert := b } w1
      else
        getPEM.loop E files { pem with Key := b } w1

/-- `getPEM`: collects the key and certificate left in `tempDir`; the record
is returned (never nil) also when reading fails. -/
def getPEM (E : Env W) (name caType : String) (w : W) : (PEM × Option GoError) × W :=
  let pem : PEM := { Name := name, Type_ := caType, Key := "", Cert := "" }
  match E.readDir E.tempDir w with
  | ((files, err), w1) =>
    if err ≠ none then ((pem, err), w1)
    else getPEM.loop E files pem w1

/-- `writeAdminKey`: overwrites the first entry of the directory with the key;
an empty directory is left as it is. -/
def writeAdminKey (E : Env W) (key path : String) (w : W) : Option GoError × W :=
  match E.readDir path w with
  | ((files, err), w1) =>
    if err ≠ none then (err, w1)
    else
      match files with
      | [] => (none, w1)
      | f :: _ =>
        match E.osCreate (E.join [path, f]) w1 with
        | ((file, err), w2) =>
          if err ≠ none then (err, w2)
          else
            match E.writeString file key w2 with
            | (err, w3) =>
              if err ≠ none then (err, E.fileClose file w3)
              else (none, E.fileClose file w3)

/-- `generateAdminCa`: the receiver after the call and the error returned.
`signCA` is the root CA pointer its only caller has just dereferenced. -/
def generateAdminCa (E : Env W) (o : Organization) (signCA : CA) (w : W) :
    (Organization × Option GoError) × W :=
  let w0 := E.removeAll E.tempDir w
  match E.generatePrivateKey E.tempDir w0 with
  | ((priv, _, err), w1) =>
    if err ≠ none then ((o, err), w1)
    else
      match E.getECPublicKey priv w1 with
      | ((ecPubKey, err), w2) =>
        if err ≠ none then ((o, err), w2)
        else
          match E.signCertificate signCA E.tempDir ("admin@" ++ o.CommonName) [] []
              ecPubKey KeyUsageDigitalSignature [] w2 with
          | ((_, err), w3) =>
            if err ≠ none then ((o, err), w3)
            else
              match getPEM E ("admin@" ++ o.CommonName) "admin" w3 with
              | ((pem, _), w4) => (({ o with PEMs := o.PEMs ++ [pem] }, none), w4)

/-- `generateRootCa`: the receiver after the call and the error returned;
panics on `rootCA.Name` or `tlsCA.Name` when `ca.NewCA` hands back a nil CA
with a nil error. -/
def generateRootCa (E : Env W) (o : Organization) (w : W) :
    Option ((Organization × Option GoError) × W) :=
  let w0 := E.removeAll E.tempDir w
  match E.newCA E.tempDir o.Organization ("ca." ++ o.CommonName) o.Country o.Province
      o.Locality o.OrganizationalUnit o.StreetAddress o.PostalCode w0 with
  | ((rootCA, err), w1) =>
    if err ≠ none then some ((o, err), w1)
    else
      match rootCA with
      | none => none
      | some rootCA =>
        match getPEM E rootCA.Name "root" w1 with
        | ((pem, _), w2) =>
          let o1 : Organization := { o with PEMs := o.PEMs ++ [pem] }
          let w3 := E.removeAll E.tempDir w2
          match E.newCA E.tempDir o1.Organization ("tlsca." ++ o1.CommonName) o1.Country
              o1.Province o1.Locality o1.OrganizationalUnit o1.StreetAddress
              o1.PostalCode w3 with
          | ((tlsCA, err), w4) =>
            if err ≠ none then some ((o1, err), w4)
            else
              match tlsCA with
              | none => none
              | some tlsCA =>
                match getPEM E tlsCA.Name "tls" w4 with
                | ((pem, _), w5) =>
                  let o2 : Organization := { o1 with PEMs := o1.PEMs ++ [pem] }
                  match generateAdminCa E o2 rootCA w5 with
                  | ((o3, _), w6) => some ((o3, none), w6)

/-- `initMsp`: returns `(nodeName, mspPath, err)`; panics on `adminCA.Name`
when the admin lookup hands back a nil CA with a nil error. -/
def initMsp (E : Env W) (nodeType : Int) (o : Organization) (w : W) :
    Option ((String × String × Option GoError) × W) :=
  let node : String := if nodeType = ORDERER then "order" else "peer"
  let nodeName : String :=
    if nodeType = ORDERER then "order." ++ o.CommonName else "peer0." ++ o.CommonName
  match GetCA E ("ca." ++ o.CommonName) o w with
  | none => none
  | some ((signCA, _, err), w1) =>
    if err ≠ none then some (("", "", err), w1)
    else
      match GetCA E ("tlsca." ++ o.CommonName) o w1 with
      | none => none
      | some ((tlsCA, _, err), w2) =>
        if err ≠ none then some (("", "", err), w2)
        else
          let mspPath := E.Path E.mspDir o.CommonName (node ++ "s") nodeName
          if err ≠ none then some (("", "", err), w2)
          else
            let w3 := E.removeAll mspPath w2
            match E.generateLocalMSP mspPath nodeName [] signCA tlsCA nodeType false w3 with
            | none => none
            | some (err, w4) =>
              if err ≠ none then some (("", "", err), w4)
              else
                match GetCA E ("admin@" ++ o.CommonName) o w4 with
                | none => none
                | some ((adminCA, _, err), w5) =>
                  if err ≠ none then some (("", "", err), w5)
                  else
                    let adminPath := E.join [mspPath, "msp", "admincerts"]
                    let w6 := E.removeAll adminPath w5
                    let adminCertPath := E.join [adminPath]
                    let w7 := E.mkdir adminCertPath w6
                    match adminCA with
                    | none => none
                    | some adminCA =>
                      let adminCertPath := E.join [adminCertPath, adminCA.Name ++ "-cert.pem"]
                      match adminCA.SignCert with
                      | none => none
                      | some signCert =>
                        match pemExport E adminCertPath "CERTIFICATE" signCert.Raw w7 with
                        | (_, w8) => some ((nodeName, mspPath, none), w8)

/-- `initAdminMsp`: returns `(nodeName, mspPath, err)`. The result of
`writeAdminKey` is dropped; the test that follows it reads the `err` of the
admin lookup. -/
def initAdminMsp (E : Env W) (o : Organization) (w : W) :
    Option ((String × String × Option GoError) × W) :=
  let node : String := "admin"
  let nodeName : String := "admin." ++ o.CommonName
  match GetCA E ("ca." ++ o.CommonName) o w with
  | none => none
  | some ((signCA, _, err), w1) =>
    if err ≠ none then some (("", "", err), w1)
    else
      match GetCA E ("tlsca." ++ o.CommonName) o w1 with
      | none => none
      | some ((tlsCA, _, err), w2) =>
        if err ≠ none then some (("", "", err), w2)
        else
          let mspPath := E.Path E.mspDir o.CommonName (node ++ "s") nodeName
          if err ≠ none then some (("", "", err), w2)
          else
            let w3 := E.removeAll mspPath w2
            match E.generateLocalMSP mspPath nodeName [] signCA tlsCA PEER false w3 with
            | none => none
            | some (err, w4) =>
              if err ≠ none then some (("", "", err), w4)
              else
                match GetCA E ("admin@" ++ o.CommonName) o w4 with
                | none => none
                | some ((adminCA, key, err), w5) =>
                  if err ≠ none then some (("", "", err), w5)
                  else
                    let adminPath := E.join [mspPath, "msp", "admincerts"]
                    let w6 := E.removeAll adminPath w5
                    let adminCertPath := E.join [adminPath]
                    let w7 := E.mkdir adminCertPath w6
                    match adminCA with
                    | none => none
                    | some adminCA =>
                      let adminCertPath := E.join [adminCertPath, adminCA.Name ++ "-cert.pem"]
                      match adminCA.SignCert with
                      | none => none
                      | some signCert =>
                        match pemExport E adminCertPath "CERTIFICATE" signCert.Raw w7 with
                        | (_, w8) =>
                          let signPath := E.join [mspPath, "msp", "signcerts"]
                          let w9 := E.removeAll signPath w8
                          let signCertPath := E.join [signPath]
                          let w10 := E.mkdir signCertPath w9
                          let signCertPath := E.join [signCertPath, nodeName ++ "-cert.pem"]
                          match pemExport E signCertPath "CERTIFICATE" signCert.Raw w10 with
                          | (_, w11) =>
                            let keyPath := E.join [mspPath, "msp", "keystore"]
                            match writeAdminKey E key keyPath w11 with
                            | (_, w12) =>
                              if err ≠ none then some (("", "", err), w12)
                              else some ((nodeName, mspPath, none), w12)

/-- `Create`: the receiver after the call and the error returned. The error of
`generateRootCa` is dropped. -/
def Create (E : Env W) (o : Organization) (w : W) :
    Option ((Organization × Option GoError) × W) :=
  match generateRootCa E o w with
  | none => none
  | some ((o, _), w1) =>
    match initMsp E ORDERER o w1 with
    | none => none
    | some ((nodeName, mspPath, err), w2) =>
      if err ≠ none then some ((o, err), w2)
      else
        let o : Organization := { o with MSPs := o.MSPs ++
          [{ Name := nodeName, Path := mspPath, Type_ := "orderer", Role := "orderer" }] }
        match initMsp E PEER o w2 with
        | none => none
        | some ((nodeName, mspPath, err), w3) =>
          if err ≠ none then some ((o, err), w3)
          else
            let o : Organization := { o with MSPs := o.MSPs ++
              [{ Name := nodeName, Path := mspPath, Type_ := "peer", Role := "peer" }] }
            match initAdminMsp E o w3 with
            | none => none
            | some ((nodeName, mspPath, err), w4) =>
              if err ≠ none then some ((o, err), w4)
              else
                let o : Organization := { o with MSPs := o.MSPs ++
                  [{ Name := nodeName, Path := mspPath, Type_ := "peer", Role := "admin" }] }
                some ((o, none), w4)

/-- The zero value of `MSP` (`var m MSP`). -/
def zeroMSP : MSP := { Name := "", Path := "", Type_ := "", Role := "" }

/-- The inner loop of `getMspByName` over one organization's `MSPs`: the MSP
it returns, if any. -/
def getMspByName.inner (mspName : String) : List MSP → Option MSP
  | [] => none
  | m :: rest => if mspName = m.Name then some m else getMspByName.inner mspName rest

/-- The outer loop of `getMspByName` over the records of the store; panics on
`o.MSPs` when a record maps to a nil `*Organization`. -/
def getMspByName.loop (E : Env W) (mspName : String) :
    List Record → Option (MSP × Option GoError)
  | [] => some (zeroMSP, some ⟨"Not find Msp"⟩)
  | v :: records =>
    match E.MapToEntity v E.organizations with
    | .organization none => none
    | .organization (some o) =>
      match getMspByName.inner mspName o.MSPs with
      | some m => some (m, none)
      | none => getMspByName.loop E mspName records
    | .other => getMspByName.loop E mspName records

/-- `getMspByName`: returns `(msp, err)`. -/
def getMspByName (E : Env W) (mspName : String) (w : W) :
    Option ((MSP × Option GoError) × W) :=
  match E.storeView E.organizations w with
  | ((records, err), w1) =>
    if err ≠ none then some ((zeroMSP, err), w1)
    else
      match getMspByName.loop E mspName records with
      | none => none
      | some r => some (r, w1)

/-! ## A concrete environment

The world is the log of the effectful calls, in order. The directory `temp`
always lists one certificate and one key file, every other directory is empty;
a string decodes to a PEM block when it is not empty. -/

/-- The root CA record of the demonstration organization. -/
def demoRootPEM : PEM :=
  { Name := "ca.example.com", Key := "KEY", Cert := "CERT", Type_ := "root" }

/-- The TLS CA record of the demonstration organization. -/
def demoTlsPEM : PEM :=
  { Name := "tlsca.example.com", Key := "KEY", Cert := "CERT", Type_ := "tls" }

/-- The admin record of the demonstration organization. -/
def demoAdminPEM : PEM :=
  { Name := "admin@example.com", Key := "KEY", Cert := "CERT", Type_ := "admin" }

/-- An organization profile with only the common name set. -/
def demoOrg : Organization :=
  { Country := "", Province := "", Locality := "", Organization := "",
    CommonName := "example.com", OrganizationalUnit := "", StreetAddress := "",
    PostalCode := "", PEMs := [], MSPs := [] }

/-- The demonstration organization once provisioned in `demoEnv`. -/
def demoProvisioned : Organization :=
  { demoOrg with
    PEMs := [demoRootPEM, demoTlsPEM, demoAdminPEM],
    MSPs := [
      { Name := "order.example.com", Path := "msp/example.com/orders/order.example.com",
        Type_ := "orderer", Role := "orderer" },
      { Name := "peer0.example.com", Path := "msp/example.com/peers/peer0.example.com",
        Type_ := "peer", Role := "peer" },
      { Name := "admin.example.com", Path := "msp/example.com/admins/admin.example.com",
        Type_ := "peer", Role := "admin" }] }

/-- A second stored organization, with two MSPs of the same name. -/
def demoOther : Organization :=
  { demoOrg with
    CommonName := "other.org",
    MSPs := [
      { Name := "peer0.other.org", Path := "first", Type_ := "peer", Role := "peer" },
      { Name := "peer0.other.org", Path := "second", Type_ := "peer", Role := "peer" }] }

/-- The demonstration environment. `tlsFails` makes `ca.NewCA` fail for the TLS
CA; `nilPanics` makes the MSP builder panic on a nil CA (as fabric's does)
instead of reporting an error. -/
def demoEnv (tlsFails nilPanics : Bool) : Env (List String) where
  tempDir := "temp"
  mspDir := "msp"
  organizations := "organizations"
  Path := fun a b c d => a ++ "/" ++ b ++ "/" ++ c ++ "/" ++ d
  MapToEntity := fun r _ =>
    if r = "example.com" then .organization (some demoProvisioned)
    else if r = "other.org" then .organization (some demoOther)
    else .other
  join := fun l => "/".intercalate l
  removeAll := fun p w => w ++ ["RemoveAll " ++ p]
  mkdir := fun p w => w ++ ["Mkdir " ++ p]
  readDir := fun p w =>
    if p = "temp" then ((["ca-cert.pem", "key_sk"], none), w) else (([], none), w)
  readFile := fun p w => ((if stringsContains p "cert.pem" then "CERT" else "KEY", none), w)
  osCreate := fun p w => ((some 1, none), w ++ ["Create " ++ p])
  fileClose := fun _ w => w
  writeString := fun _ s w => (none, w ++ ["WriteString " ++ s])
  pemEncode := fun _ b w => (none, w ++ ["Encode " ++ b.Bytes])
  pemDecode := fun s => if s = "" then none else some { Type_ := "PEM", Bytes := s }
  parseCertificate := fun b => .ok { Raw := b }
  newCA := fun _ _ name country province locality orgUnit street postal w =>
    if tlsFails && name = "tlsca.example.com" then
      ((none, some { msg := "key generation failed" }), w ++ ["NewCA " ++ name])
    else
      ((some { Name := name, Country := country, Province := province,
               Locality := locality, OrganizationalUnit := orgUnit,
               StreetAddress := street, PostalCode := postal, Signer := some 7,
               SignCert := some { Raw := "CERT" } }, none), w ++ ["NewCA " ++ name])
  generatePrivateKey := fun _ w => ((some 2, some 3, none), w)
  getECPublicKey := fun _ w => ((some 4, none), w)
  signCertificate := fun _ _ name _ _ _ _ _ w =>
    ((some { Raw := "CERT" }, none), w ++ ["SignCertificate " ++ name])
  getBCCSPFromOpts := fun w => ((some 5, none), w)
  keyImport := fun _ _ w => ((some 6, none), w)
  signerNew := fun _ _ w => ((some 7, none), w)
  generateLocalMSP := fun _ name _ signCA tlsCA _ _ w =>
    match signCA, tlsCA with
    | some _, some _ => some (none, w ++ ["GenerateLocalMSP " ++ name])
    | _, _ =>
      if nilPanics then none
      else some (some { msg := "nil CA" }, w ++ ["GenerateLocalMSP " ++ name])
  storeView := fun _ w => ((["unrelated", "other.org", "example.com"], none), w)
  newCA_name := by
    intro _ _ name _ _ _ _ _ _ _ ca h
    by_cases hc : (tlsFails && decide (name = "tlsca.example.com")) = true
    · simp [hc] at h
    · simp only [hc] at h
      simp at h
      rw [← h]

/-- The demonstration organization with a root CA record whose certificate is
empty, followed by a sound record of the same name. -/
def demoBroken : Organization :=
  { demoOrg with
    PEMs := [demoTlsPEM, { demoRootPEM with Cert := "" }, demoRootPEM] }

/-- The demonstration organization with a root CA record whose certificate is
sound and whose key is empty. -/
def demoKeyless : Organization :=
  { demoOrg with PEMs := [{ demoRootPEM with Key := "" }] }

/-- The demonstration organization with a sound root CA record and a TLS CA
record whose certificate is empty. -/
def demoBrokenTls : Organization :=
  { demoOrg with PEMs := [demoRootPEM, { demoTlsPEM with Cert := "" }] }

/-- The CA `GetCA` rebuilds in `demoEnv` from a record of the given name. -/
def demoCA (name : String) : CA :=
  { Name := name, Country := "", Province := "", Locality := "", OrganizationalUnit := "",
    StreetAddress := "", PostalCode := "", Signer := some 7, SignCert := some { Raw := "CERT" } }

/-- The log of `initAdminMsp` in `demoEnv` up to the MSP builder. -/
def demoAdminBuilt : List String :=
  ["RemoveAll msp/example.com/admins/admin.example.com", "GenerateLocalMSP admin.example.com"]

/-- The log of `initAdminMsp` in `demoEnv` once both certificates are exported. -/
def demoAdminExported : List String :=
  demoAdminBuilt ++
  ["RemoveAll msp/example.com/admins/admin.example.com/msp/admincerts",
   "Mkdir msp/example.com/admins/admin.example.com/msp/admincerts",
   "Create msp/example.com/admins/admin.example.com/msp/admincerts/admin@example.com-cert.pem",
   "Encode CERT",
   "RemoveAll msp/example.com/admins/admin.example.com/msp/signcerts",
   "Mkdir msp/example.com/admins/admin.example.com/msp/signcerts",
   "Create msp/example.com/admins/admin.example.com/msp/signcerts/admin.example.com-cert.pem",
   "Encode CERT"]

/-! ## Vocabulary of the statements -/

/-- The organizations a list of store records maps to, in store order. -/
def storedOrganizations (E : Env W) (records : List Record) : List Organization :=
  records.filterMap (fun v =>
    match E.MapToEntity v E.organizations with
    | .organization (some o) => some o
    | _ => none)

/-- The first MSP of the given name in store order: organizations in order,
then each organization's MSPs in order. -/
def firstMspNamed (mspName : String) (orgs : List Organization) : Option MSP :=
  (orgs.flatMap (fun o => o.MSPs)).find? (fun m => decide (m.Name = mspName))

/-- The world in which `initAdminMsp` calls `writeAdminKey`, reached from the
world `w5` left by the admin lookup: the admin certificate has been exported
to `admincerts` and to `signcerts` (lines 201 to 213 of the source). -/
def adminCertsExported (E : Env W) (mspPath nodeName : String) (adminCA : CA)
    (signCert : Certificate) (w5 : W) : W :=
  let adminPath := E.join [mspPath, "msp", "admincerts"]
  let w6 := E.removeAll adminPath w5
  let adminCertPath := E.join [adminPath]
  let w7 := E.mkdir adminCertPath w6
  let w8 := (pemExport E (E.join [adminCertPath, adminCA.Name ++ "-cert.pem"]) "CERTIFICATE"
    signCert.Raw w7).2
  let signPath := E.join [mspPath, "msp", "signcerts"]
  let w9 := E.removeAll signPath w8
  let signCertPath := E.join [signPath]
  let w10 := E.mkdir signCertPath w9
  (pemExport E (E.join [signCertPath, nodeName ++ "-cert.pem"]) "CERTIFICATE"
    signCert.Raw w10).2

/-! ## Theorems -/

/-- `LoadSigner` panics exactly when the provider is obtained without error and
the key holds no PEM block. -/
theorem LoadSigner_eq_none_iff (E : Env W) (rawKey : String) (w : W) :
    LoadSigner E rawKey w = none ↔
      (E.getBCCSPFromOpts w).1.2 = none ∧ E.pemDecode rawKey = none := by
  unfold LoadSigner
  repeat' split
  all_goals simp_all

/-- The loop of `GetCA` falls through a list that holds no record of the name. -/
theorem GetCA_loop_absent (E : Env W) (commonName : String) (organization : Organization)
    (l : List PEM) (w : W) (h : ∀ v ∈ l, v.Name ≠ commonName) :
    GetCA.loop E commonName organization l w = some ((none, "", none), w) := by
  induction l with
  | nil => rfl
  | cons v rest ih =>
    have hv : v.Name ≠ commonName := h v (List.mem_cons_self _ _)
    have hr : ∀ u ∈ rest, u.Name ≠ commonName := fun u hu => h u (List.mem_cons_of_mem _ hu)
    rw [GetCA.loop, if_neg hv, ih hr]

/-- The loop of `GetCA` is decided by the first record of the name. -/
theorem GetCA_loop_first (E : Env W) (commonName : String) (organization : Organization)
    (l : List PEM) (v : PEM) (w : W)
    (h : l.find? (fun p => decide (p.Name = commonName)) = some v) :
    GetCA.loop E commonName organization l w = GetCA.loop E commonName organization [v] w := by
  induction l with
  | nil => simp at h
  | cons u rest ih =>
    by_cases hu : u.Name = commonName
    · have : u = v := by simpa [List.find?, hu] using h
      subst this
      rw [GetCA.loop, if_pos hu, GetCA.loop, if_pos hu]
    · have h2 : rest.find? (fun p => decide (p.Name = commonName)) = some v := by
        simpa [List.find?, hu] using h
      rw [GetCA.loop, if_neg hu, ih h2]

/-- The loop of `GetCA` skips a run of records of other names. -/
theorem GetCA_loop_skip (E : Env W) (commonName : String) (organization : Organization)
    (pre rest : List PEM) (w : W) (hpre : ∀ p ∈ pre, p.Name ≠ commonName) :
    GetCA.loop E commonName organization (pre ++ rest) w =
      GetCA.loop E commonName organization rest w := by
  induction pre with
  | nil => rfl
  | cons u pre ih =>
    have hu : u.Name ≠ commonName := hpre u (List.mem_cons_self _ _)
    have hr : ∀ p ∈ pre, p.Name ≠ commonName := fun p hp => hpre p (List.mem_cons_of_mem _ hp)
    rw [List.cons_append, GetCA.loop, if_neg hu, ih hr]

/-- C1: for a name that no record of `organization.PEMs` carries (empty `PEMs`
included), `GetCA` returns a nil CA, the empty raw key and no error, and leaves
the world as it was. -/
theorem GetCA_absent (E : Env W) (commonName : String) (organization : Organization) (w : W)
    (h : ∀ v ∈ organization.PEMs, v.Name ≠ commonName) :
    GetCA E commonName organization w = some ((none, "", none), w) :=
  GetCA_loop_absent E commonName organization organization.PEMs w h

/-- C1 at the provisioned demonstration organization (a name none of its three
records carries) and at the empty one. -/
theorem GetCA_absent_witness :
    (∀ v ∈ demoProvisioned.PEMs, v.Name ≠ "orderer.example.com") ∧
    (∀ v ∈ demoOrg.PEMs, v.Name ≠ "ca.example.com") ∧
    GetCA (demoEnv false true) "orderer.example.com" demoProvisioned [] =
      some ((none, "", none), []) ∧
    GetCA (demoEnv false true) "ca.example.com" demoOrg [] = some ((none, "", none), []) :=
  ⟨by decide, by decide,
   GetCA_absent (demoEnv false true) "orderer.example.com" demoProvisioned [] (by decide),
   GetCA_absent (demoEnv false true) "ca.example.com" demoOrg [] (by decide)⟩

/-- C2 as stated fails: `demoBroken` holds a record named `ca.example.com`, yet
`GetCA` returns a nil CA (and an error), because the first record of that name
has a certificate without a PEM block. -/
theorem GetCA_present_nil_signer :
    (∃ v ∈ demoBroken.PEMs, v.Name = "ca.example.com") ∧
    GetCA (demoEnv false true) "ca.example.com" demoBroken [] =
      some ((none, "", some ⟨"no PEM data found for certificate"⟩), []) := by
  decide

/-- C2, amended: when the first record named `commonName` has a certificate
that decodes to a PEM block and parses as X.509, and `LoadSigner` imports its
key without error, `GetCA` returns a non-nil CA whose `Name` is the requested
name (with the imported signer and the parsed certificate), the record's raw
key and no error. -/
theorem GetCA_found (E : Env W) (commonName : String) (organization : Organization)
    (w w1 : W) (v : PEM) (cBlock : Block) (cert : Certificate) (priv signer : Handle)
    (hv : organization.PEMs.find? (fun p => decide (p.Name = commonName)) = some v)
    (hd : E.pemDecode v.Cert = some cBlock)
    (hp : E.parseCertificate cBlock.Bytes = .ok cert)
    (hs : LoadSigner E v.Key w = some ((priv, signer, none), w1)) :
    ∃ ca : CA, GetCA E commonName organization w = some ((some ca, v.Key, none), w1) ∧
      ca.Name = commonName ∧ ca.Signer = signer ∧ ca.SignCert = some cert := by
  have hn : v.Name = commonName := by
    have := List.find?_some hv
    simpa using this
  refine ⟨{ Name := commonName, Signer := signer, SignCert := some cert,
             Country := organization.Country, Province := organization.Province,
             Locality := organization.Locality,
             OrganizationalUnit := organization.OrganizationalUnit,
             StreetAddress := organization.StreetAddress,
             PostalCode := organization.PostalCode }, ?_, rfl, rfl, rfl⟩
  rw [GetCA, GetCA_loop_first E commonName organization _ v w hv, GetCA.loop, if_pos hn]
  simp only [hd, hp, hs]
  simp

/-- C2, amended, at the TLS CA record (the second of three) of the provisioned
demonstration organization. -/
theorem GetCA_found_witness :
    demoProvisioned.PEMs.find? (fun p => decide (p.Name = "tlsca.example.com")) =
      some demoTlsPEM ∧
    LoadSigner (demoEnv false true) demoTlsPEM.Key [] = some ((some 6, some 7, none), []) ∧
    ∃ ca : CA, GetCA (demoEnv false true) "tlsca.example.com" demoProvisioned [] =
        some ((some ca, demoTlsPEM.Key, none), []) ∧
      ca.Name = "tlsca.example.com" ∧ ca.Signer = some 7 ∧
      ca.SignCert = some { Raw := "CERT" } :=
  ⟨by decide, by decide,
   GetCA_found (demoEnv false true) "tlsca.example.com" demoProvisioned [] [] demoTlsPEM
     { Type_ := "PEM", Bytes := "CERT" } { Raw := "CERT" } (some 6) (some 7)
     (by decide) (by decide) rfl (by decide)⟩

/-- C7: when the first record named `commonName` has a `Cert` that holds no PEM
block, or whose block does not parse as X.509, `GetCA` returns a nil CA, an
empty raw key and a non-nil error in an untouched world; the same result comes
out whatever records follow and whatever the rest of the environment does,
the key import included. -/
theorem GetCA_cert_decode_error (E : Env W) (commonName : String)
    (organization : Organization) (w : W) (pre post : List PEM) (v : PEM)
    (hpems : organization.PEMs = pre ++ v :: post)
    (hpre : ∀ p ∈ pre, p.Name ≠ commonName) (hv : v.Name = commonName)
    (hbad : E.pemDecode v.Cert = none ∨
      ∃ b e, E.pemDecode v.Cert = some b ∧ E.parseCertificate b.Bytes = .error e) :
    ∃ err : GoError,
      GetCA E commonName organization w = some ((none, "", some err), w) ∧
      ∀ (E' : Env W) (post' : List PEM), E'.pemDecode = E.pemDecode →
        E'.parseCertificate = E.parseCertificate →
        GetCA E' commonName { organization with PEMs := pre ++ v :: post' } w =
          some ((none, "", some err), w) := by
  have key : ∃ err : GoError, ∀ (E' : Env W) (post' : List PEM) (o' : Organization),
      E'.pemDecode = E.pemDecode → E'.parseCertificate = E.parseCertificate →
      GetCA.loop E' commonName o' (pre ++ v :: post') w = some ((none, "", some err), w) := by
    rcases hbad with hnone | ⟨b, e, hb, he⟩
    · refine ⟨⟨"no PEM data found for certificate"⟩, ?_⟩
      intro E' post' o' h1 _
      rw [GetCA_loop_skip E' commonName o' pre _ w hpre, GetCA.loop, if_pos hv, h1, hnone]
    · refine ⟨e, ?_⟩
      intro E' post' o' h1 h2
      rw [GetCA_loop_skip E' commonName o' pre _ w hpre, GetCA.loop, if_pos hv, h1, h2, hb]
      simp only [he]
  obtain ⟨err, herr⟩ := key
  refine ⟨err, ?_, ?_⟩
  · rw [GetCA, hpems]
    exact herr E post organization rfl rfl
  · intro E' post' h1 h2
    exact herr E' post' _ h1 h2

/-- C7 at `demoBroken`: the record with the empty certificate decides the
lookup, though a sound record of the same name follows it. -/
theorem GetCA_cert_decode_error_witness :
    (demoEnv false true).pemDecode ({ demoRootPEM with Cert := "" } : PEM).Cert = none ∧
    ∃ err : GoError, GetCA (demoEnv false true) "ca.example.com" demoBroken [] =
      some ((none, "", some err), []) :=
  ⟨by decide,
   (GetCA_cert_decode_error (demoEnv false true) "ca.example.com" demoBroken []
      [demoTlsPEM] [demoRootPEM] { demoRootPEM with Cert := "" } rfl (by decide) rfl
      (Or.inl (by decide))).imp (fun _ h => h.1)⟩

/-- C10 fails on the code: the record of `demoKeyless` has a certificate that
decodes and parses and a key without a PEM block; `LoadSigner` reads
`block.Bytes` of the nil block, so `LoadSigner` and `GetCA` panic instead of
returning an error. -/
theorem GetCA_panics_on_key_without_block :
    (demoEnv false true).pemDecode "" = none ∧
    LoadSigner (demoEnv false true) "" [] = none ∧
    GetCA (demoEnv false true) "ca.example.com" demoKeyless [] = none := by
  decide

/-- The inner loop of `getMspByName` finds the first MSP of the name. -/
theorem getMspByName_inner_eq (mspName : String) (l : List MSP) :
    getMspByName.inner mspName l = l.find? (fun m => decide (m.Name = mspName)) := by
  induction l with
  | nil => rfl
  | cons m rest ih =>
    by_cases hm : mspName = m.Name
    · simp [getMspByName.inner, List.find?, hm]
    · have hm2 : ¬ m.Name = mspName := fun h => hm h.symm
      simp [getMspByName.inner, List.find?, hm, hm2, ih]

/-- The outer loop of `getMspByName`, over records none of which maps to a nil
organization pointer. -/
theorem getMspByName_loop_eq (E : Env W) (mspName : String) (records : List Record)
    (hmap : ∀ v ∈ records, E.MapToEntity v E.organizations ≠ .organization none) :
    getMspByName.loop E mspName records =
      some (match firstMspNamed mspName (storedOrganizations E records) with
        | some m => (m, none)
        | none => (zeroMSP, some ⟨"Not find Msp"⟩)) := by
  induction records with
  | nil => rfl
  | cons v records ih =>
    have hv := hmap v (List.mem_cons_self _ _)
    have ih2 := ih (fun u hu => hmap u (List.mem_cons_of_mem _ hu))
    cases hent : E.MapToEntity v E.organizations with
    | other =>
      simp only [getMspByName.loop, hent, ih2, storedOrganizations, List.filterMap_cons]
    | organization p =>
      cases p with
      | none => exact absurd hent hv
      | some o =>
        simp only [getMspByName.loop, hent, storedOrganizations, List.filterMap_cons,
          firstMspNamed, List.flatMap_cons, List.find?_append, getMspByName_inner_eq]
        cases hf : List.find? (fun m => decide (m.Name = mspName)) o.MSPs with
        | some m => simp
        | none =>
          simp only [Option.none_or]
          rw [ih2]
          rfl

/-- C8: when the store is read without error and no record maps to a nil
organization pointer, `getMspByName` returns the first MSP of the name in store
order with no error if there is one, and the zero MSP with the error
`Not find Msp` otherwise; it returns that error exactly when no stored
organization has an MSP of the name. -/
theorem getMspByName_spec (E : Env W) (mspName : String) (w w1 : W)
    (records : List Record)
    (hview : E.storeView E.organizations w = ((records, none), w1))
    (hmap : ∀ v ∈ records, E.MapToEntity v E.organizations ≠ .organization none) :
    getMspByName E mspName w =
        some ((match firstMspNamed mspName (storedOrganizations E records) with
          | some m => (m, none)
          | none => (zeroMSP, some ⟨"Not find Msp"⟩)), w1) ∧
      (getMspByName E mspName w = some ((zeroMSP, some ⟨"Not find Msp"⟩), w1) ↔
        ∀ o ∈ storedOrganizations E records, ∀ m ∈ o.MSPs, m.Name ≠ mspName) := by
  have hmain : getMspByName E mspName w =
        some ((match firstMspNamed mspName (storedOrganizations E records) with
          | some m => (m, none)
          | none => (zeroMSP, some ⟨"Not find Msp"⟩)), w1) := by
    simp only [getMspByName, hview, getMspByName_loop_eq E mspName records hmap]
    simp
  refine ⟨hmain, ?_⟩
  rw [hmain]
  cases hf : firstMspNamed mspName (storedOrganizations E records) with
  | some m =>
    simp only [Option.some.injEq, Prod.mk.injEq, and_true, reduceCtorEq, and_false, false_iff]
    intro hall
    have hm := List.mem_of_find?_eq_some hf
    have hn := List.find?_some hf
    rw [List.mem_flatMap] at hm
    obtain ⟨o, ho, hmo⟩ := hm
    exact hall o ho m hmo (by simpa using hn)
  | none =>
    simp only [true_iff]
    intro o ho m hm hname
    have := List.find?_eq_none.mp hf m (List.mem_flatMap.mpr ⟨o, ho, hm⟩)
    simp [hname] at this

/-- C8 at the demonstration store (an unrelated record, then `other.org` with
two MSPs of one name, then `example.com`): the first of the two is returned,
and a name nobody carries gives the error. -/
theorem getMspByName_spec_witness :
    (demoEnv false true).storeView "organizations" [] =
      ((["unrelated", "other.org", "example.com"], none), []) ∧
    getMspByName (demoEnv false true) "peer0.other.org" [] =
      some (({ Name := "peer0.other.org", Path := "first", Type_ := "peer", Role := "peer" },
        none), []) ∧
    getMspByName (demoEnv false true) "peer1.example.com" [] =
      some ((zeroMSP, some ⟨"Not find Msp"⟩), []) :=
  ⟨rfl,
   (getMspByName_spec (demoEnv false true) "peer0.other.org" [] []
      ["unrelated", "other.org", "example.com"] rfl (by decide)).1,
   (getMspByName_spec (demoEnv false true) "peer1.example.com" [] []
      ["unrelated", "other.org", "example.com"] rfl (by decide)).1⟩

/-- The loop of `getPEM` keeps the name and the type of the record. -/
theorem getPEM_loop_name_type (E : Env W) (files : List String) (pem : PEM) (w : W) :
    (getPEM.loop E files pem w).1.1.Name = pem.Name ∧
      (getPEM.loop E files pem w).1.1.Type_ = pem.Type_ := by
  induction files generalizing pem w with
  | nil => exact ⟨rfl, rfl⟩
  | cons f files ih =>
    unfold getPEM.loop
    split
    split
    · exact ⟨rfl, rfl⟩
    · split
      · exact ih _ _
      · exact ih _ _

/-- The record `getPEM` returns carries the name and the type it was given. -/
theorem getPEM_name_type (E : Env W) (name caType : String) (w : W) :
    (getPEM E name caType w).1.1.Name = name ∧ (getPEM E name caType w).1.1.Type_ = caType := by
  simp only [getPEM]
  split
  · exact ⟨rfl, rfl⟩
  · exact getPEM_loop_name_type E _ _ _

/-- What `generateAdminCa` does to the receiver: nothing, or one admin record appended. -/
theorem generateAdminCa_shape (E : Env W) (o o' : Organization) (signCA : CA) (w w' : W)
    (e : Option GoError) (h : generateAdminCa E o signCA w = ((o', e), w')) :
    o' = o ∨
      ∃ pem : PEM, pem.Name = "admin@" ++ o.CommonName ∧ pem.Type_ = "admin" ∧
        o' = { o with PEMs := o.PEMs ++ [pem] } := by
  simp only [generateAdminCa] at h
  split at h
  · left; simp only [Prod.mk.injEq] at h; exact h.1.1.symm
  · split at h
    · left; simp only [Prod.mk.injEq] at h; exact h.1.1.symm
    · split at h
      · left; simp only [Prod.mk.injEq] at h; exact h.1.1.symm
      · right
        simp only [Prod.mk.injEq] at h
        exact ⟨_, (getPEM_name_type E _ _ _).1, (getPEM_name_type E _ _ _).2, h.1.1.symm⟩

/-- No common name makes the root CA name and the admin name coincide. -/
theorem ca_ne_admin (c : String) : "ca." ++ c ≠ "admin@" ++ c := by
  intro h
  have := congrArg String.data h
  simp at this

/-- No common name makes the TLS CA name and the admin name coincide. -/
theorem tlsca_ne_admin (c : String) : "tlsca." ++ c ≠ "admin@" ++ c := by
  intro h
  have := congrArg String.data h
  simp at this

/-- What `generateRootCa` does to a receiver without records: the records are
an initial run of root CA, TLS CA, admin, and nothing else changes. -/
theorem generateRootCa_shape (E : Env W) (o o1 : Organization) (w w1 : W)
    (e : Option GoError) (hP : o.PEMs = [])
    (h : generateRootCa E o w = some ((o1, e), w1)) :
    o1.CommonName = o.CommonName ∧ o1.MSPs = o.MSPs ∧
      ∃ (r t a : PEM) (n : Nat),
        (r.Name = "ca." ++ o.CommonName ∧ r.Type_ = "root") ∧
        (t.Name = "tlsca." ++ o.CommonName ∧ t.Type_ = "tls") ∧
        (a.Name = "admin@" ++ o.CommonName ∧ a.Type_ = "admin") ∧
        o1.PEMs = List.take n [r, t, a] := by
  have hr : ∀ (x : String) (ty : String), ∃ p : PEM, p.Name = x ∧ p.Type_ = ty :=
    fun x ty => ⟨⟨x, "", "", ty⟩, rfl, rfl⟩
  obtain ⟨r0, hr0⟩ := hr ("ca." ++ o.CommonName) "root"
  obtain ⟨t0, ht0⟩ := hr ("tlsca." ++ o.CommonName) "tls"
  obtain ⟨a0, ha0⟩ := hr ("admin@" ++ o.CommonName) "admin"
  simp only [generateRootCa] at h
  split at h
  · simp only [Option.some.injEq, Prod.mk.injEq] at h
    obtain ⟨⟨rfl, _⟩, _⟩ := h
    exact ⟨rfl, rfl, r0, t0, a0, 0, hr0, ht0, ha0, by simp [hP]⟩
  · split at h
    · simp at h
    · rename_i rootCA hroot
      have hrn : rootCA.Name = "ca." ++ o.CommonName := E.newCA_name _ _ _ _ _ _ _ _ _ _ _ hroot
      have hg : ∀ w, (getPEM E rootCA.Name "root" w).1.1.Name = "ca." ++ o.CommonName ∧
          (getPEM E rootCA.Name "root" w).1.1.Type_ = "root" := fun w => by
        rw [← hrn]
        exact getPEM_name_type E _ _ w
      split at h
      · simp only [Option.some.injEq, Prod.mk.injEq] at h
        obtain ⟨⟨rfl, _⟩, _⟩ := h
        refine ⟨rfl, rfl, ?_⟩
        simp only [hP, List.nil_append]
        exact ⟨_, t0, a0, 1, hg _, ht0, ha0, rfl⟩
      · split at h
        · simp at h
        · rename_i tlsCA htls
          have htn : tlsCA.Name = "tlsca." ++ o.CommonName :=
            E.newCA_name _ _ _ _ _ _ _ _ _ _ _ htls
          have hgt : ∀ w, (getPEM E tlsCA.Name "tls" w).1.1.Name = "tlsca." ++ o.CommonName ∧
              (getPEM E tlsCA.Name "tls" w).1.1.Type_ = "tls" := fun w => by
            rw [← htn]
            exact getPEM_name_type E _ _ w
          simp only [Option.some.injEq, Prod.mk.injEq] at h
          obtain ⟨⟨ho1, _⟩, _⟩ := h
          rcases generateAdminCa_shape E _ _ _ _ _ _ (Prod.ext (Prod.ext ho1 rfl) rfl)
            with hsame | ⟨pem, hpn, hpt, hadd⟩
          · subst hsame
            refine ⟨rfl, rfl, ?_⟩
            simp only [hP, List.nil_append]
            exact ⟨_, _, a0, 2, hg _, hgt _, ha0, rfl⟩
          · subst hadd
            refine ⟨rfl, rfl, ?_⟩
            simp only [hP, List.nil_append]
            exact ⟨_, _, pem, 3, hg _, hgt _, ⟨hpn, hpt⟩, rfl⟩

/-- A CA handed back by `GetCA` comes from a record of the name. -/
theorem GetCA_some_mem (E : Env W) (commonName : String) (organization : Organization)
    (w : W) (r : (Option CA × String × Option GoError) × W) (ca : CA)
    (h : GetCA E commonName organization w = some r) (hca : r.1.1 = some ca) :
    ∃ v ∈ organization.PEMs, v.Name = commonName := by
  by_contra hne
  have habs : ∀ v ∈ organization.PEMs, v.Name ≠ commonName := by
    intro v hv hn
    exact hne ⟨v, hv, hn⟩
  rw [GetCA, GetCA_loop_absent E commonName organization _ w habs] at h
  simp only [Option.some.injEq] at h
  rw [← h] at hca
  simp at hca

/-- What a run of `initMsp` without error tells: an admin record is present, and
the node name and path are the computed ones. -/
theorem initMsp_success (E : Env W) (nodeType : Int) (o : Organization) (w w' : W)
    (n p : String) (h : initMsp E nodeType o w = some ((n, p, none), w')) :
    (∃ v ∈ o.PEMs, v.Name = "admin@" ++ o.CommonName) ∧
      n = (if nodeType = ORDERER then "order." ++ o.CommonName else "peer0." ++ o.CommonName) ∧
      p = E.Path E.mspDir o.CommonName ((if nodeType = ORDERER then "order" else "peer") ++ "s") n := by
  simp only [initMsp] at h
  repeat' split at h
  all_goals first
    | (simp_all; done)
    | skip
  all_goals
    have hmem := GetCA_some_mem E ("admin@" ++ o.CommonName) o _ _ _ (by assumption) rfl
    simp only [Option.some.injEq, Prod.mk.injEq] at h
    obtain ⟨⟨rfl, rfl, _⟩, _⟩ := h
    refine ⟨hmem, ?_, ?_⟩ <;> simp [*]

/-- What a run of `initAdminMsp` without error tells about the name and path. -/
theorem initAdminMsp_success (E : Env W) (o : Organization) (w w' : W)
    (n p : String) (h : initAdminMsp E o w = some ((n, p, none), w')) :
    n = "admin." ++ o.CommonName ∧
      p = E.Path E.mspDir o.CommonName ("admin" ++ "s") n := by
  simp only [initAdminMsp] at h
  repeat' split at h
  all_goals first
    | (simp_all; done)
    | skip
  all_goals
    simp only [Option.some.injEq, Prod.mk.injEq] at h
    obtain ⟨⟨rfl, rfl, _⟩, _⟩ := h
    exact ⟨rfl, rfl⟩

/-- An admin-named record among an initial run of root, TLS, admin means the
run is complete. -/
theorem admin_mem_take (c : String) (r t a : PEM) (n : Nat)
    (hr : r.Name = "ca." ++ c) (ht : t.Name = "tlsca." ++ c)
    (h : ∃ v ∈ List.take n [r, t, a], v.Name = "admin@" ++ c) :
    List.take n [r, t, a] = [r, t, a] := by
  obtain ⟨v, hv, hn⟩ := h
  have h1 : r.Name ≠ "admin@" ++ c := hr ▸ ca_ne_admin c
  have h2 : t.Name ≠ "admin@" ++ c := ht ▸ tlsca_ne_admin c
  match n with
  | 0 => simp at hv
  | 1 =>
    simp at hv
    subst hv
    exact absurd hn h1
  | 2 =>
    simp at hv
    rcases hv with rfl | rfl
    · exact absurd hn h1
    · exact absurd hn h2
  | (k + 3) => simp

/-- The receiver after a run of `Create` without error, from empty `PEMs` and
`MSPs`. -/
theorem Create_success_core (E : Env W) (o o' : Organization) (w w' : W)
    (hP : o.PEMs = []) (hM : o.MSPs = [])
    (h : Create E o w = some ((o', none), w')) :
    (∃ r t a : PEM, o'.PEMs = [r, t, a] ∧
      (r.Name = "ca." ++ o.CommonName ∧ r.Type_ = "root") ∧
      (t.Name = "tlsca." ++ o.CommonName ∧ t.Type_ = "tls") ∧
      (a.Name = "admin@" ++ o.CommonName ∧ a.Type_ = "admin")) ∧
    o'.MSPs = [
      { Name := "order." ++ o.CommonName,
        Path := E.Path E.mspDir o.CommonName "orders" ("order." ++ o.CommonName),
        Type_ := "orderer", Role := "orderer" },
      { Name := "peer0." ++ o.CommonName,
        Path := E.Path E.mspDir o.CommonName "peers" ("peer0." ++ o.CommonName),
        Type_ := "peer", Role := "peer" },
      { Name := "admin." ++ o.CommonName,
        Path := E.Path E.mspDir o.CommonName "admins" ("admin." ++ o.CommonName),
        Type_ := "peer", Role := "admin" }] := by
  simp only [Create] at h
  split at h
  · simp at h
  · rename_i o1 e1 w1 hgen
    obtain ⟨hcn, hmsp, r, t, a, n, hr, ht, ha, hpems⟩ := generateRootCa_shape E o o1 w w1 e1 hP hgen
    split at h
    · simp at h
    · rename_i n1 p1 err1 w2 h1
      split at h
      · simp only [Option.some.injEq, Prod.mk.injEq] at h
        exact absurd h.1.2 (by assumption)
      · rename_i herr1
        have herr1 : err1 = none := by simpa using herr1
        subst herr1
        obtain ⟨hadm, hn1, hp1⟩ := initMsp_success E ORDERER o1 w1 w2 n1 p1 h1
        split at h
        · simp at h
        · rename_i n2 p2 err2 w3 h2
          split at h
          · simp only [Option.some.injEq, Prod.mk.injEq] at h
            exact absurd h.1.2 (by assumption)
          · rename_i herr2
            have herr2 : err2 = none := by simpa using herr2
            subst herr2
            obtain ⟨_, hn2, hp2⟩ := initMsp_success E PEER _ w2 w3 n2 p2 h2
            split at h
            · simp at h
            · rename_i n3 p3 err3 w4 h3
              split at h
              · simp only [Option.some.injEq, Prod.mk.injEq] at h
                exact absurd h.1.2 (by assumption)
              · rename_i herr3
                have herr3 : err3 = none := by simpa using herr3
                subst herr3
                obtain ⟨hn3, hp3⟩ := initAdminMsp_success E _ w3 w4 n3 p3 h3
                simp only [Option.some.injEq, Prod.mk.injEq, and_true] at h
                obtain ⟨rfl, _⟩ := h
                rw [hcn] at hadm
                rw [hpems] at hadm
                have hfull := admin_mem_take o.CommonName r t a n hr.1 ht.1 hadm
                refine ⟨⟨r, t, a, ?_, hr, ht, ha⟩, ?_⟩
                · show o1.PEMs = _
                  rw [hpems, hfull]
                · show o1.MSPs ++ _ ++ _ ++ _ = _
                  subst hn3 hp3 hn2 hp2 hn1 hp1
                  simp [hmsp, hM, hcn, ORDERER, PEER]

/-- C3: from empty `PEMs` and `MSPs`, whatever the crypto provider, the MSP
builder and the file system do, if `Create` returns no error then `PEMs` has
exactly three records, of types root, tls, admin in that order, and `MSPs` has
exactly three records, of roles orderer, peer, admin in that order. -/
theorem Create_success_counts (E : Env W) (o o' : Organization) (w : W)
    (hP : o.PEMs = []) (hM : o.MSPs = [])
    (h : (Create E o w).map (fun r => r.1) = some (o', none)) :
    o'.PEMs.map (fun p => p.Type_) = ["root", "tls", "admin"] ∧
      o'.MSPs.map (fun m => m.Role) = ["orderer", "peer", "admin"] := by
  cases hc : Create E o w with
  | none => simp [hc] at h
  | some res =>
    obtain ⟨⟨o2, e⟩, w'⟩ := res
    simp only [hc, Option.map_some', Option.some.injEq, Prod.mk.injEq] at h
    obtain ⟨rfl, rfl⟩ := h
    obtain ⟨⟨r, t, a, hl, hr, ht, ha⟩, hm⟩ := Create_success_core E o o2 w w' hP hM hc
    constructor
    · rw [hl]
      simp [hr.2, ht.2, ha.2]
    · rw [hm]
      rfl

/-- C3 at the demonstration organization, which `Create` provisions in `demoEnv`. -/
theorem Create_success_counts_witness :
    demoOrg.PEMs = [] ∧ demoOrg.MSPs = [] ∧
    (Create (demoEnv false true) demoOrg []).map (fun r => r.1) = some (demoProvisioned, none) ∧
    demoProvisioned.PEMs.map (fun p => p.Type_) = ["root", "tls", "admin"] ∧
    demoProvisioned.MSPs.map (fun m => m.Role) = ["orderer", "peer", "admin"] :=
  ⟨rfl, rfl, by decide,
   Create_success_counts (demoEnv false true) demoOrg demoProvisioned [] rfl rfl (by decide)⟩

/-- C6: from empty `PEMs` and `MSPs`, when `Create` returns no error the records
are named `ca.c` (root), `tlsca.c` (tls), `admin@c` (admin) and the MSPs are
named `order.c` (orderer), `peer0.c` (peer), `admin.c` (admin), in that order,
each MSP with the path `Path` returned for `mspDir`, `c`, the plural of the
node kind and the node name; these paths are not empty when `Path` returns no
empty path. -/
theorem Create_success_names (E : Env W) (o o' : Organization) (w : W)
    (hP : o.PEMs = []) (hM : o.MSPs = [])
    (hPath : ∀ role node : String, E.Path E.mspDir o.CommonName role node ≠ "")
    (h : (Create E o w).map (fun r => r.1) = some (o', none)) :
    o'.PEMs.map (fun p => (p.Name, p.Type_)) =
        [("ca." ++ o.CommonName, "root"), ("tlsca." ++ o.CommonName, "tls"),
         ("admin@" ++ o.CommonName, "admin")] ∧
      o'.MSPs.map (fun m => (m.Name, m.Role, m.Path)) =
        [("order." ++ o.CommonName, "orderer",
            E.Path E.mspDir o.CommonName "orders" ("order." ++ o.CommonName)),
         ("peer0." ++ o.CommonName, "peer",
            E.Path E.mspDir o.CommonName "peers" ("peer0." ++ o.CommonName)),
         ("admin." ++ o.CommonName, "admin",
            E.Path E.mspDir o.CommonName "admins" ("admin." ++ o.CommonName))] ∧
      ∀ m ∈ o'.MSPs, m.Path ≠ "" := by
  cases hc : Create E o w with
  | none => simp [hc] at h
  | some res =>
    obtain ⟨⟨o2, e⟩, w'⟩ := res
    simp only [hc, Option.map_some', Option.some.injEq, Prod.mk.injEq] at h
    obtain ⟨rfl, rfl⟩ := h
    obtain ⟨⟨r, t, a, hl, hr, ht, ha⟩, hm⟩ := Create_success_core E o o2 w w' hP hM hc
    refine ⟨?_, ?_, ?_⟩
    · rw [hl]
      simp [hr, ht, ha]
    · rw [hm]
      rfl
    · rw [hm]
      intro m hmem
      simp only [List.mem_cons, List.mem_singleton, List.not_mem_nil, or_false] at hmem
      rcases hmem with rfl | rfl | rfl <;> exact hPath _ _

/-- C6 at the common name `example.com`, the other fields empty. -/
theorem Create_success_names_witness :
    (Create (demoEnv false true) demoOrg []).map (fun r => r.1) = some (demoProvisioned, none) ∧
    demoProvisioned.PEMs.map (fun p => (p.Name, p.Type_)) =
        [("ca.example.com", "root"), ("tlsca.example.com", "tls"),
         ("admin@example.com", "admin")] ∧
    demoProvisioned.MSPs.map (fun m => (m.Name, m.Role, m.Path)) =
        [("order.example.com", "orderer", "msp/example.com/orders/order.example.com"),
         ("peer0.example.com", "peer", "msp/example.com/peers/peer0.example.com"),
         ("admin.example.com", "admin", "msp/example.com/admins/admin.example.com")] ∧
    ∀ m ∈ demoProvisioned.MSPs, m.Path ≠ "" :=
  ⟨by decide,
   Create_success_names (demoEnv false true) demoOrg demoProvisioned [] rfl rfl
     (by
       intro role node h
       have := congrArg String.data h
       simp [demoEnv] at this)
     (by decide)⟩

/-- C4 fails on the code: the root CA is made and `ca.NewCA` fails for the TLS
CA. `generateRootCa` returns that error with the root record alone in `PEMs`,
but `Create` drops it and goes on to `initMsp`, which hands a nil TLS CA to
the MSP builder: `Create` returns the builder's error when the builder
reports one, and panics when the builder dereferences the nil CA. -/
theorem Create_drops_CA_generation_error :
    (generateRootCa (demoEnv true false) demoOrg []).map (fun r => r.1) =
      some ({ demoOrg with PEMs := [demoRootPEM] }, some ⟨"key generation failed"⟩) ∧
    (Create (demoEnv true false) demoOrg []).map (fun r => r.1) =
      some ({ demoOrg with PEMs := [demoRootPEM] }, some ⟨"nil CA"⟩) ∧
    Create (demoEnv true true) demoOrg [] = none := by
  decide

/-- C5 as stated fails: with no record at all in `PEMs`, `initMsp` clears the
bundle directory and invokes the MSP builder (with nil CAs); the error it
returns is the builder's, and it panics when the builder does. -/
theorem initMsp_absent_reaches_builder :
    (∀ p ∈ demoOrg.PEMs, p.Name ≠ "ca." ++ demoOrg.CommonName) ∧
    initMsp (demoEnv false false) ORDERER demoOrg [] =
      some (("", "", some ⟨"nil CA"⟩),
        ["RemoveAll msp/example.com/orders/order.example.com",
         "GenerateLocalMSP order.example.com"]) ∧
    initMsp (demoEnv false true) ORDERER demoOrg [] = none := by
  decide

/-- C5, amended: `initMsp` returns a non-nil error with empty node name and
path, in the world the lookup left (the bundle directory not cleared, the MSP
builder not invoked), when the lookup of `ca.<CommonName>` reports an error,
or when that lookup succeeds and the lookup of `tlsca.<CommonName>` reports
one; a name that no record carries is looked up without error. -/
theorem initMsp_lookup_error (E : Env W) (nodeType : Int) (o : Organization) (w : W) :
    (∀ (r : Option CA) (k : String) (e : GoError) (w1 : W),
      GetCA E ("ca." ++ o.CommonName) o w = some ((r, k, some e), w1) →
      initMsp E nodeType o w = some (("", "", some e), w1)) ∧
    (∀ (signCA : Option CA) (k1 : String) (w1 : W) (r : Option CA) (k2 : String)
        (e : GoError) (w2 : W),
      GetCA E ("ca." ++ o.CommonName) o w = some ((signCA, k1, none), w1) →
      GetCA E ("tlsca." ++ o.CommonName) o w1 = some ((r, k2, some e), w2) →
      initMsp E nodeType o w = some (("", "", some e), w2)) ∧
    (∀ (name : String) (w0 : W), (∀ p ∈ o.PEMs, p.Name ≠ name) →
      GetCA E name o w0 = some ((none, "", none), w0)) := by
  refine ⟨?_, ?_, ?_⟩
  · intro r k e w1 h
    simp only [initMsp, h]
    simp
  · intro signCA k1 w1 r k2 e w2 h1 h2
    simp only [initMsp, h1, h2]
    simp
  · intro name w0 h
    exact GetCA_loop_absent E name o o.PEMs w0 h

/-- C5, amended, at a root CA record and at a TLS CA record with an empty
certificate. -/
theorem initMsp_lookup_error_witness :
    initMsp (demoEnv false true) ORDERER demoBroken [] =
      some (("", "", some ⟨"no PEM data found for certificate"⟩), []) ∧
    initMsp (demoEnv false true) PEER demoBrokenTls [] =
      some (("", "", some ⟨"no PEM data found for certificate"⟩), []) :=
  ⟨(initMsp_lookup_error (demoEnv false true) ORDERER demoBroken []).1 none ""
      ⟨"no PEM data found for certificate"⟩ [] (by decide),
   (initMsp_lookup_error (demoEnv false true) PEER demoBrokenTls []).2.1
      (some { Name := "ca.example.com", Country := "", Province := "", Locality := "",
              OrganizationalUnit := "", StreetAddress := "", PostalCode := "",
              Signer := some 7, SignCert := some { Raw := "CERT" } })
      "KEY" [] none "" ⟨"no PEM data found for certificate"⟩ [] (by decide) (by decide)⟩

/-- C9 as stated fails: in `demoEnv` the keystore directory lists no file, the
three lookups and the MSP builder succeed, and `initAdminMsp` returns the node
name and the path with no error. -/
theorem initAdminMsp_empty_keystore_no_error :
    (∀ w, ((demoEnv false true).readDir
        "msp/example.com/admins/admin.example.com/msp/keystore" w).1 = ([], none)) ∧
    (initAdminMsp (demoEnv false true) demoProvisioned []).map (fun r => r.1) =
      some ("admin.example.com", "msp/example.com/admins/admin.example.com", none) :=
  ⟨fun _ => rfl, by decide⟩

/-- C9, amended: when the three lookups succeed without error, the MSP builder
succeeds, and the keystore directory is read without error and lists no file
at the moment the admin key is to be written, `writeAdminKey` writes nothing
and reports no error, and `initAdminMsp` returns the node name
`admin.<CommonName>` and the bundle path with no error. -/
theorem initAdminMsp_empty_keystore (E : Env W) (o : Organization)
    (w w1 w2 w4 w5 w12 : W) (signCA tlsCA : Option CA) (k1 k2 key : String)
    (adminCA : CA) (signCert : Certificate) (nodeName mspPath : String)
    (hname : nodeName = "admin." ++ o.CommonName)
    (hpath : mspPath = E.Path E.mspDir o.CommonName "admins" nodeName)
    (hca : GetCA E ("ca." ++ o.CommonName) o w = some ((signCA, k1, none), w1))
    (htls : GetCA E ("tlsca." ++ o.CommonName) o w1 = some ((tlsCA, k2, none), w2))
    (hgen : E.generateLocalMSP mspPath nodeName [] signCA tlsCA PEER false
      (E.removeAll mspPath w2) = some (none, w4))
    (hadm : GetCA E ("admin@" ++ o.CommonName) o w4 = some ((some adminCA, key, none), w5))
    (hcert : adminCA.SignCert = some signCert)
    (hkey : E.readDir (E.join [mspPath, "msp", "keystore"])
      (adminCertsExported E mspPath nodeName adminCA signCert w5) = (([], none), w12)) :
    writeAdminKey E key (E.join [mspPath, "msp", "keystore"])
        (adminCertsExported E mspPath nodeName adminCA signCert w5) = (none, w12) ∧
      initAdminMsp E o w = some ((nodeName, mspPath, none), w12) := by
  subst hname hpath
  have hw : writeAdminKey E key
      (E.join [E.Path E.mspDir o.CommonName "admins" ("admin." ++ o.CommonName), "msp",
        "keystore"])
      (adminCertsExported E (E.Path E.mspDir o.CommonName "admins" ("admin." ++ o.CommonName))
        ("admin." ++ o.CommonName) adminCA signCert w5) = (none, w12) := by
    simp only [writeAdminKey, hkey]
    simp
  refine ⟨hw, ?_⟩
  have hs : ("admin" ++ "s" : String) = "admins" := by decide
  simp only [initAdminMsp, hs, hca, htls, hgen, hadm, hcert]
  simp only [adminCertsExported] at hw
  simp [hw]

/-- C9, amended, at the provisioned demonstration organization. -/
theorem initAdminMsp_empty_keystore_witness :
    (demoEnv false true).readDir "msp/example.com/admins/admin.example.com/msp/keystore"
      demoAdminExported = (([], none), demoAdminExported) ∧
    initAdminMsp (demoEnv false true) demoProvisioned [] =
      some (("admin.example.com", "msp/example.com/admins/admin.example.com", none),
        demoAdminExported) :=
  ⟨rfl,
   (initAdminMsp_empty_keystore (demoEnv false true) demoProvisioned
      [] [] [] demoAdminBuilt demoAdminBuilt demoAdminExported
      (some (demoCA "ca.example.com")) (some (demoCA "tlsca.example.com")) "KEY" "KEY" "KEY"
      (demoCA "admin@example.com") { Raw := "CERT" }
      "admin.example.com" "msp/example.com/admins/admin.example.com"
      (by decide) (by decide) (by decide) (by decide) (by decide) (by decide) rfl
      (by decide)).2⟩

end Fabric
